import Mathlib

/-!
Shallow embedding of the expense-tracker web application (source: src/app.py,
the multi-user variant; src/Mini-Project.py is the same CRUD core without
sessions).  The MongoDB collections become Lean lists kept in insertion
order; `insert_one` appends, `find_one` takes the first match, `delete_one`
removes the first match and `update_one` rewrites the first match, mirroring
the driver semantics on a single collection.  Monetary amounts are modelled
by `PyFloat`, the value domain of Python `float(...)`: the special values
infinity and nan plus finite values, the latter carried as exact rationals
(binary64 rounding is not modelled — see the `PyFloat` doc comment).  Dates
are year/month/day triples and the per-request `session` dict is an
explicit `Session` value.  Flash messages and template rendering are
represented by small outcome types carrying the same distinctions the
flashed messages make.  The category aggregation pipeline is modelled
relationally, because MongoDB specifies neither the order of `$group`
output nor the relative order of equal `$sort` keys.
-/

namespace ExpenseTracker

/-- Calendar date as stored in an expense record (the `datetime` object in
the source is produced by `strptime(_, "%Y-%m-%d")` or `utcnow()`; only the
date part is ever rendered). -/
structure Date where
  year : Nat
  month : Nat
  day : Nat
  deriving DecidableEq, Repr

/-- Value domain of Python floats as stored in the `amount` field: the
special values produced by `float("inf")`, `float("-inf")` and
`float("nan")`, plus finite values.  Finite values are carried as exact
rationals: the rounding of a decimal literal to binary64, and the overflow
of huge exponent forms to infinity, are not modelled — an idealization that
limits which arithmetic claims this embedding can settle. -/
inductive PyFloat
  | finite (q : Rat)
  | inf
  | negInf
  | nan
  deriving DecidableEq, Repr

instance (n : Nat) : OfNat PyFloat n := ⟨PyFloat.finite (OfNat.ofNat n)⟩

/-- Addition of Python float values: `nan` propagates, opposite infinities
give `nan`, an infinity absorbs finite values; finite addition is exact
rational addition (see `PyFloat` on the rounding idealization). -/
def PyFloat.add : PyFloat → PyFloat → PyFloat
  | .nan, _ => .nan
  | _, .nan => .nan
  | .inf, .negInf => .nan
  | .negInf, .inf => .nan
  | .inf, _ => .inf
  | _, .inf => .inf
  | .negInf, _ => .negInf
  | _, .negInf => .negInf
  | .finite a, .finite b => .finite (a + b)

instance : Add PyFloat := ⟨PyFloat.add⟩

/-- Total comparison used when sorting numeric BSON values: `nan` sorts
below every number, then negative infinity, finite values by magnitude,
positive infinity on top. -/
def pyLeB : PyFloat → PyFloat → Bool
  | .nan, _ => true
  | _, .nan => false
  | .negInf, _ => true
  | _, .negInf => false
  | .finite a, .finite b => decide (a ≤ b)
  | .finite _, .inf => true
  | .inf, .finite _ => false
  | .inf, .inf => true

/-- Descending companion of `pyLeB`, as a relation. -/
def pyGe (x y : PyFloat) : Prop := pyLeB y x = true

instance : DecidableRel pyGe :=
  fun x y => inferInstanceAs (Decidable (pyLeB y x = true))

instance : IsAntisymm PyFloat pyGe := by
  constructor
  intro a b hab hba
  cases a <;> cases b <;> first
    | rfl
    | exact (Bool.false_ne_true hab).elim
    | exact (Bool.false_ne_true hba).elim
    | exact congrArg PyFloat.finite (le_antisymm
        (by simpa [pyGe, pyLeB] using hba)
        (by simpa [pyGe, pyLeB] using hab))

/-- One document of the `expenses` collection, as written by `add`:
`{"user_id": ..., "category": ..., "amount": ..., "date": ...}` plus the
`_id` assigned by the store (modelled as a `Nat`). -/
structure Expense where
  _id : Nat
  user_id : String
  category : String
  amount : PyFloat
  date : Date
  deriving DecidableEq, Repr

/-- One document of the `users` collection, as written by `register`:
`{"username": ..., "password": generate_password_hash(pw), "role": "user"}`
plus the assigned `_id`.  The `password` field holds the stored hash. -/
structure User where
  _id : Nat
  username : String
  password : String
  role : String
  deriving DecidableEq, Repr

/-- The authenticated per-request session established by `login`:
`session["user_id"]` and `session["role"]` (the username entry plays no role
in the routes modelled here). -/
structure Session where
  user_id : String
  role : String
  deriving DecidableEq, Repr

/-- Form data of the add/edit POST requests: `request.form.get` yields the
field when present and the caller-supplied default otherwise, so each field
is an `Option String`. -/
structure AddForm where
  category : Option String
  amount : Option String
  date : Option String
  deriving DecidableEq, Repr

/-- Leap-year rule used by `datetime` when validating a day-of-month. -/
def isLeap (y : Nat) : Bool :=
  (y % 4 == 0 && y % 100 != 0) || y % 400 == 0

/-- Number of days in a month, as validated by `datetime.strptime`. -/
def daysInMonth (y m : Nat) : Nat :=
  if m == 2 then (if isLeap y then 29 else 28)
  else if m == 4 || m == 6 || m == 9 || m == 11 then 30
  else 31

/-- Model of Python `str.strip()`: remove leading and trailing whitespace. -/
def strip (s : String) : String :=
  String.mk (((s.toList.dropWhile Char.isWhitespace).reverse.dropWhile
    Char.isWhitespace).reverse)

/-- Split a character list on a separator character, keeping empty pieces,
as `"a-b".split("-")` does. -/
def splitOnChar (sep : Char) : List Char → List (List Char)
  | [] => [[]]
  | c :: rest =>
    match splitOnChar sep rest with
    | [] => [[]]
    | g :: gs => if c == sep then [] :: g :: gs else (c :: g) :: gs

/-- Value of a list of decimal digit characters. -/
def digitsToNat (cs : List Char) : Nat :=
  cs.foldl (fun n c => n * 10 + (c.toNat - 48)) 0

/-- Read a nonempty all-digit character group as a natural number. -/
def parseNatDigits (cs : List Char) : Option Nat :=
  if cs.isEmpty then none
  else if cs.all Char.isDigit then some (digitsToNat cs)
  else none

/-- Model of `datetime.strptime(s, "%Y-%m-%d")`: three dash-separated
numeric fields.  The `%Y` pattern of `_strptime` is exactly four digits and
`datetime` requires the year to be at least `MINYEAR = 1`; month and day
are one or two digits, range-checked (the day against the month and leap
year).  Any other shape raises, modelled as `none`. -/
def parseDate (s : String) : Option Date :=
  match splitOnChar '-' s.toList with
  | [ys, ms, ds] =>
    match parseNatDigits ys, parseNatDigits ms, parseNatDigits ds with
    | some y, some m, some d =>
      if ys.length == 4 && ms.length ≤ 2 && ds.length ≤ 2
          && 1 ≤ y && 1 ≤ m && m ≤ 12 && 1 ≤ d && d ≤ daysInMonth y m then
        some ⟨y, m, d⟩
      else none
    | _, _, _ => none
  | _ => none

/-- Lower-cased ASCII code point, for case-insensitive keyword matching. -/
def lowNat (c : Char) : Nat :=
  let n := c.toNat
  if 65 ≤ n && n ≤ 90 then n + 32 else n

/-- Case-insensitive match of a character list against a keyword. -/
def matchesWord (cs w : List Char) : Bool :=
  cs.map lowNat == w.map lowNat

/-- Continuation of a digit group after at least one digit has been
consumed: further digits extend the group, and a single underscore is
allowed when a digit follows it. -/
def grabDigitsCont : List Char → List Char × List Char
  | [] => ([], [])
  | '_' :: d :: rest2 =>
    if d.isDigit then
      let p := grabDigitsCont rest2
      (d :: p.1, p.2)
    else ([], '_' :: d :: rest2)
  | c :: rest =>
    if c.isDigit then
      let p := grabDigitsCont rest
      (c :: p.1, p.2)
    else ([], c :: rest)

/-- Consume a maximal digit group in which single underscores may separate
digits (the numeric-literal grouping accepted by `float`, as in `"1_0"`),
returning the digits with underscores removed and the unconsumed
remainder.  The group must start with a digit; an underscore not enclosed
by digits is left unconsumed. -/
def grabDigits : List Char → List Char × List Char
  | [] => ([], [])
  | c :: rest =>
    if c.isDigit then
      let p := grabDigitsCont rest
      (c :: p.1, p.2)
    else ([], c :: rest)

/-- Exact rational value of a parsed decimal literal: sign, integer digits,
fraction digits and decimal exponent.  The value is formed directly as a
normalized fraction `mantissa * 10 ^ (exponent - fraction length)`. -/
def ratOfParts (sign : Int) (ip fp : List Char) (ex : Int) : Rat :=
  let mant : Int :=
    sign * ((digitsToNat ip * 10 ^ fp.length + digitsToNat fp : Nat) : Int)
  let net : Int := ex - (fp.length : Int)
  if 0 ≤ net then ((mant * ((10 ^ net.toNat : Nat) : Int) : Int) : Rat)
  else mkRat mant (10 ^ (-net).toNat)

/-- Exponent part of a float literal after the `e`: an optional sign then
an underscore-grouped digit run consuming the whole remainder. -/
def parseExpPart (cs : List Char) : Option Int :=
  let signAndRest : Int × List Char :=
    match cs with
    | '-' :: rest => (-1, rest)
    | '+' :: rest => (1, rest)
    | _ => (1, cs)
  let p := grabDigits signAndRest.2
  if p.1.isEmpty then none
  else
    match p.2 with
    | [] => some (signAndRest.1 * (digitsToNat p.1 : Int))
    | _ => none

/-- Model of Python `float(s)` on the already-stripped string `s`, covering
the forms `float` accepts: an optional sign followed by `inf`, `infinity`
or `nan` (case-insensitive), or a decimal significand (`"12"`, `"12.5"`,
`"12."`, `".5"`) with optional single underscores between digits (`"1_0"`)
and an optional exponent part (`"1e5"`, `"1.2E-3"`, `"1e1_0"`).  Every
other string raises `ValueError`, modelled as `none`.  Finite values are
returned exactly (see `PyFloat` on the rounding idealization of finite
literals); non-ASCII digit spellings are not modelled. -/
def parseAmount (s : String) : Option PyFloat :=
  let cs := s.toList
  let signAndRest : Int × List Char :=
    match cs with
    | '-' :: rest => (-1, rest)
    | '+' :: rest => (1, rest)
    | _ => (1, cs)
  let sign := signAndRest.1
  let body := signAndRest.2
  if matchesWord body ['i', 'n', 'f'] ||
      matchesWord body ['i', 'n', 'f', 'i', 'n', 'i', 't', 'y'] then
    some (if sign = -1 then PyFloat.negInf else PyFloat.inf)
  else if matchesWord body ['n', 'a', 'n'] then
    some PyFloat.nan
  else
    let ipr := grabDigits body
    let ip := ipr.1
    match ipr.2 with
    | [] =>
      if ip.isEmpty then none
      else some (PyFloat.finite (ratOfParts sign ip [] 0))
    | '.' :: r2 =>
      let fpr := grabDigits r2
      let fp := fpr.1
      if ip.isEmpty && fp.isEmpty then none
      else
        match fpr.2 with
        | [] => some (PyFloat.finite (ratOfParts sign ip fp 0))
        | e :: r4 =>
          if e == 'e' || e == 'E' then
            match parseExpPart r4 with
            | some ex => some (PyFloat.finite (ratOfParts sign ip fp ex))
            | none => none
          else none
    | e :: r4 =>
      if ip.isEmpty then none
      else if e == 'e' || e == 'E' then
        match parseExpPart r4 with
        | some ex => some (PyFloat.finite (ratOfParts sign ip [] ex))
        | none => none
      else none

/-- The owner-scoped single-record lookup of the `edit` route:
`expenses.find_one({"_id": obj_id, "user_id": session["user_id"]})`. -/
def findExpense (oid : Nat) (uid : String) (store : List Expense) : Option Expense :=
  store.find? (fun e => e._id == oid && e.user_id == uid)

/-- Model of `delete_one`: remove the first document matching the filter;
removing nothing when no document matches is not an error. -/
def deleteOne (p : Expense → Bool) : List Expense → List Expense
  | [] => []
  | e :: rest => if p e then rest else e :: deleteOne p rest

/-- Model of `update_one`: rewrite the first document matching the filter;
rewriting nothing when no document matches is not an error. -/
def updateOne (p : Expense → Bool) (f : Expense → Expense) : List Expense → List Expense
  | [] => []
  | e :: rest => if p e then f e :: rest else e :: updateOne p f rest

/-- Outcome of the `add` POST handler, distinguished by the flashed
message: `"Amount must be a number"` versus `"Expense added"`. -/
inductive AddOutcome
  | invalidAmount
  | added
  deriving DecidableEq, Repr

/-- The `add` POST handler (src/app.py lines 120-136).  Field defaults are
those of the source: `form.get("category", "Uncategorized")`,
`form.get("amount", "0")`, `form.get("date", "")`, each then stripped; a
non-parsing amount aborts with no write; a non-parsing date falls back to
`datetime.utcnow()` (the `now` argument); on success one document is
appended with the fresh id `newId`. -/
def add (form : AddForm) (sess : Session) (now : Date) (newId : Nat)
    (store : List Expense) : AddOutcome × List Expense :=
  match parseAmount (strip (form.amount.getD "0")) with
  | none => (AddOutcome.invalidAmount, store)
  | some amount =>
    (AddOutcome.added,
      store ++ [{ _id := newId,
                  user_id := sess.user_id,
                  category := strip (form.category.getD "Uncategorized"),
                  amount := amount,
                  date := (parseDate (strip (form.date.getD ""))).getD now }])

/-- Outcome of the `edit` POST handler, distinguished by the flashed
message: `"Expense not found"`, `"Amount must be a number"`, or
`"Expense updated"`. -/
inductive EditOutcome
  | notFound
  | invalidAmount
  | updated
  deriving DecidableEq, Repr

/-- The `edit` POST handler (src/app.py lines 139-168) for a structurally
valid object id `oid`.  The lookup is scoped to the caller
(`find_one({"_id": obj_id, "user_id": session["user_id"]})`); an absent
amount field defaults to `str(exp["amount"])`, which `float` parses back to
the stored amount; a non-parsing amount aborts with no write; the date field
default is `""` and is not stripped here; a non-parsing date falls back to
the previously stored date `exp.date` (the source writes
`exp.get("date", datetime.utcnow())`, and every stored record carries a
date, so the `now` argument is never consulted); the `$set` update is
filtered by `_id` alone, as in the source. -/
def edit (oid : Nat) (form : AddForm) (sess : Session) (now : Date)
    (store : List Expense) : EditOutcome × List Expense :=
  match findExpense oid sess.user_id store with
  | none => (EditOutcome.notFound, store)
  | some exp =>
    match (match form.amount with
           | some s => parseAmount (strip s)
           | none => some exp.amount) with
    | none => (EditOutcome.invalidAmount, store)
    | some amount =>
      (EditOutcome.updated,
        updateOne (fun e => e._id == oid)
          (fun e => { e with
            category := strip (form.category.getD exp.category),
            amount := amount,
            date := (parseDate (form.date.getD "")).getD exp.date }) store)

/-- Outcome of the `delete` handler, distinguished by the flashed message:
`"Expense deleted"` versus `"Could not delete item"`.  The latter arises
only when `ObjectId(id)` raises on a malformed id string; for the
structurally valid ids modelled here it is unreachable. -/
inductive DeleteOutcome
  | deleted
  | couldNotDelete
  deriving DecidableEq, Repr

/-- The `delete` handler (src/app.py lines 174-183) for a structurally valid
object id: `delete_one({"_id": obj_id, "user_id": session["user_id"]})`
followed unconditionally by the success flash `"Expense deleted"`. -/
def delete (oid : Nat) (sess : Session) (store : List Expense) :
    DeleteOutcome × List Expense :=
  (DeleteOutcome.deleted,
    deleteOne (fun e => e._id == oid && e.user_id == sess.user_id) store)

/-- Accumulate one expense into the running per-category totals.  The
entries are kept in first-occurrence order here, but only the multiset of
pairs ever matters: the pipeline model below closes over permutations,
because MongoDB documents the order of `$group` output as unspecified. -/
def addToGroups (groups : List (String × PyFloat)) (cat : String)
    (amt : PyFloat) : List (String × PyFloat) :=
  match groups with
  | [] => [(cat, amt)]
  | (c, t) :: rest =>
    if c == cat then (c, t + amt) :: rest
    else (c, t) :: addToGroups rest cat amt

/-- Content of the `$group: {_id: "$category", total: {$sum: "$amount"}}`
stage of the dashboard pipeline: one `(category, sum of amount)` pair per
distinct category of the scoped record list.  Only the multiset of pairs is
meaningful (see `addToGroups`). -/
def groupTotals (l : List Expense) : List (String × PyFloat) :=
  l.foldl (fun gs e => addToGroups gs e.category e.amount) []

/-- Comparison used by the `$sort: {"total": -1}` stage: a document precedes
another when its total is at least as large (descending by total, no
secondary key). -/
def totalGE (a b : String × PyFloat) : Prop := pyLeB b.2 a.2 = true

instance : DecidableRel totalGE :=
  fun a b => inferInstanceAs (Decidable (pyLeB b.2 a.2 = true))

/-- The outputs the dashboard aggregation pipeline (src/app.py lines
97-104) may produce on the scoped record list `l`: `$group` emits the
per-category sums in an unspecified order and `$sort: {"total": -1}` is not
stable on equal keys, so a possible output is exactly a permutation of the
per-category sums that is ordered descending by total. -/
def validAggOutput (l : List Expense) (out : List (String × PyFloat)) :
    Prop :=
  out.Perm (groupTotals l) ∧ List.Sorted totalGE out

/-- Result of an `admin_required`-guarded listing route: the decorator
redirects with `"Admin access only"` before the handler body runs unless
`session.get("role") == "admin"`. -/
inductive AdminResult (α : Type)
  | denied
  | ok (val : α)
  deriving DecidableEq, Repr

/-- The `admin_expenses` route (src/app.py lines 188-196): behind
`admin_required`, it materializes `expenses.find()` (the full, unscoped
collection; the subsequent id/date stringification is presentation only). -/
def admin_expenses (sess : Session) (store : List Expense) :
    AdminResult (List Expense) :=
  if sess.role == "admin" then AdminResult.ok store else AdminResult.denied

/-- The `admin_users` route (src/app.py lines 198-204): behind
`admin_required`, it materializes `users.find()` (the full collection). -/
def admin_users (sess : Session) (store : List User) :
    AdminResult (List User) :=
  if sess.role == "admin" then AdminResult.ok store else AdminResult.denied

/-- One spreadsheet cell of the exported DataFrame: either a string or a
number (pandas keeps `amount` numeric; ids and dates are stringified before
the frame is built). -/
inductive Cell
  | str (s : String)
  | num (v : PyFloat)
  deriving DecidableEq, Repr

/-- Zero-padded two-digit rendering used by `strftime("%Y-%m-%d")`. -/
def pad2 (n : Nat) : String :=
  if n < 10 then "0" ++ toString n else toString n

/-- Zero-padded four-digit year rendering of `strftime("%Y-%m-%d")`. -/
def pad4 (n : Nat) : String :=
  if n < 10 then "000" ++ toString n
  else if n < 100 then "00" ++ toString n
  else if n < 1000 then "0" ++ toString n
  else toString n

/-- Model of `date.strftime("%Y-%m-%d")`. -/
def fmtDate (d : Date) : String :=
  pad4 d.year ++ "-" ++ pad2 d.month ++ "-" ++ pad2 d.day

/-- One exported row of the expenses frame: the full document with `_id`
stringified and `date` reformatted, exactly the mutation loop of
`admin_export`. -/
def expenseRow (e : Expense) : List (String × Cell) :=
  [("_id", Cell.str (toString e._id)),
   ("user_id", Cell.str e.user_id),
   ("category", Cell.str e.category),
   ("amount", Cell.num e.amount),
   ("date", Cell.str (fmtDate e.date))]

/-- One exported row of the users frame: the full document with `_id`
stringified (user documents carry no `date` field, so the date branch of the
mutation loop does not fire); in particular the stored `password` hash is
exported as-is. -/
def userRow (u : User) : List (String × Cell) :=
  [("_id", Cell.str (toString u._id)),
   ("username", Cell.str u.username),
   ("password", Cell.str u.password),
   ("role", Cell.str u.role)]

/-- Result of the `admin_export` route: the admin guard redirect, the
`"Invalid export type"` redirect, or a sent file with its download name and
tabular contents. -/
inductive ExportResult
  | denied
  | invalidType
  | file (name : String) (rows : List (List (String × Cell)))
  deriving DecidableEq, Repr

/-- The `admin_export` route (src/app.py lines 206-227): behind
`admin_required`, it exports the full `expenses` or `users` collection as a
spreadsheet named `<type>.xlsx`, and rejects any other type. -/
def admin_export (sess : Session) (ty : String) (es : List Expense)
    (us : List User) : ExportResult :=
  if sess.role == "admin" then
    if ty == "expenses" then ExportResult.file (ty ++ ".xlsx") (es.map expenseRow)
    else if ty == "users" then ExportResult.file (ty ++ ".xlsx") (us.map userRow)
    else ExportResult.invalidType
  else ExportResult.denied

/-! Sample values shared by concrete instantiations. -/

/-- Sample date used in concrete stores. -/
def d0 : Date := ⟨2024, 1, 10⟩

/-- Sample non-admin session (a logged-in regular user). -/
def aliceSess : Session := ⟨"alice", "user"⟩

/-! Helper lemmas about the store primitives. -/

/-- Removing with a filter no element satisfies leaves the list unchanged. -/
theorem deleteOne_eq_of_forall_false (p : Expense → Bool) (l : List Expense)
    (h : ∀ e ∈ l, p e = false) : deleteOne p l = l := by
  induction l with
  | nil => rfl
  | cons e rest ih =>
    simp only [deleteOne, h e (List.mem_cons_self e rest), Bool.false_eq_true,
      if_false, List.cons.injEq, true_and]
    exact ih fun x hx => h x (List.mem_cons_of_mem e hx)

/-- Under unique ids, a repeated `delete_one` with the same id filter is a
no-op: at most one document can match, and it is gone after the first
pass. -/
theorem deleteOne_idem_of_nodup (oid : Nat) (uid : String) (store : List Expense)
    (h : (store.map Expense._id).Nodup) :
    deleteOne (fun e => e._id == oid && e.user_id == uid)
        (deleteOne (fun e => e._id == oid && e.user_id == uid) store) =
      deleteOne (fun e => e._id == oid && e.user_id == uid) store := by
  induction store with
  | nil => rfl
  | cons e rest ih =>
    rw [List.map_cons, List.nodup_cons] at h
    cases hp : (e._id == oid && e.user_id == uid) with
    | true =>
      simp only [deleteOne, hp, if_true]
      refine deleteOne_eq_of_forall_false _ _ fun x hx => ?_
      have hid : e._id = oid := by
        have hpc := hp
        simp only [Bool.and_eq_true, beq_iff_eq] at hpc
        exact hpc.1
      have hxid : x._id ≠ oid := by
        intro hcontra
        exact h.1 (hid ▸ hcontra ▸ List.mem_map_of_mem Expense._id hx)
      simp [hxid]
    | false =>
      simp only [deleteOne, hp, Bool.false_eq_true, if_false, List.cons.injEq,
        true_and]
      exact ih h.2

/-! Claim C3: category normalization on create. -/

/-- C3 (counterexample): the claim says a create whose category string is
empty after trimming persists `"Uncategorized"`; the code only substitutes
the default when the field is absent.  A whitespace-only category field
(here `"   "`, empty after trimming) is persisted as the empty string, not
as `"Uncategorized"`. -/
theorem C3_counterexample_blank_category :
    add ⟨some "   ", some "5", none⟩ aliceSess d0 1 [] =
      (AddOutcome.added, [⟨1, "alice", "", 5, d0⟩]) ∧
    ("" : String) ≠ "Uncategorized" := by
  constructor
  · decide
  · decide

/-- C3 (amended): `add` persists category `"Uncategorized"` exactly when
the category field is absent from the form; when the field is present the
persisted category is the stripped input string, even when that is
empty. -/
theorem C3_category_default_on_absent (form : AddForm) (sess : Session)
    (now : Date) (newId : Nat) (store : List Expense) (a : PyFloat)
    (h : parseAmount (strip (form.amount.getD "0")) = some a) :
    ∃ e, add form sess now newId store = (AddOutcome.added, store ++ [e]) ∧
      (form.category = none → e.category = "Uncategorized") ∧
      (∀ s, form.category = some s → e.category = strip s) := by
  refine ⟨⟨newId, sess.user_id, strip (form.category.getD "Uncategorized"), a,
      (parseDate (strip (form.date.getD ""))).getD now⟩, ?_, ?_, ?_⟩
  · unfold add
    rw [h]
  · intro hc
    show strip (form.category.getD "Uncategorized") = "Uncategorized"
    rw [hc]
    decide
  · intro s hs
    show strip (form.category.getD "Uncategorized") = strip s
    rw [hs]
    rfl

/-- C3 (witness): concrete instantiation of the amended claim, with an
absent category field and amount `"5"`. -/
theorem C3_category_default_on_absent_witness :
    ∃ e, add ⟨none, some "5", none⟩ aliceSess d0 2 [] =
        (AddOutcome.added, [] ++ [e]) ∧
      ((⟨none, some "5", none⟩ : AddForm).category = none →
        e.category = "Uncategorized") ∧
      (∀ s, (⟨none, some "5", none⟩ : AddForm).category = some s →
        e.category = strip s) :=
  C3_category_default_on_absent ⟨none, some "5", none⟩ aliceSess d0 2 [] 5
    (by decide)

/-! Claim C9: an absent amount field is not an error on create. -/

/-- C9: when the amount field is entirely absent, `add` substitutes the
string `"0"`, does not fail with the invalid-amount outcome, and persists a
record whose amount is `0`. -/
theorem C9_absent_amount_defaults_zero (form : AddForm) (sess : Session)
    (now : Date) (newId : Nat) (store : List Expense)
    (h : form.amount = none) :
    ∃ e, add form sess now newId store = (AddOutcome.added, store ++ [e]) ∧
      e.amount = 0 := by
  refine ⟨⟨newId, sess.user_id, strip (form.category.getD "Uncategorized"), 0,
      (parseDate (strip (form.date.getD ""))).getD now⟩, ?_, rfl⟩
  unfold add
  rw [h, show parseAmount (strip ((none : Option String).getD "0")) = some 0
    from by decide]

/-- C9 (witness): concrete create request with no amount field. -/
theorem C9_absent_amount_defaults_zero_witness :
    ∃ e, add ⟨some "Food", none, none⟩ aliceSess d0 1 [] =
        (AddOutcome.added, [] ++ [e]) ∧ e.amount = 0 :=
  C9_absent_amount_defaults_zero ⟨some "Food", none, none⟩ aliceSess d0 1 []
    rfl

/-! Claim C4: malformed amounts abort create and update with no write. -/

/-- C4: when the supplied amount string does not parse as a decimal number,
`add` fails with the invalid-amount outcome and inserts nothing, and `edit`
of any record the caller can locate fails with the invalid-amount outcome
and modifies nothing. -/
theorem C4_invalid_amount_no_write (form : AddForm) (sess : Session)
    (now : Date) (newId oid : Nat) (store : List Expense) (s : String)
    (hform : form.amount = some s) (hparse : parseAmount (strip s) = none) :
    add form sess now newId store = (AddOutcome.invalidAmount, store) ∧
    (∀ exp, findExpense oid sess.user_id store = some exp →
      edit oid form sess now store = (EditOutcome.invalidAmount, store)) := by
  constructor
  · unfold add
    rw [hform]
    show (match parseAmount (strip s) with
          | none => (AddOutcome.invalidAmount, store)
          | some amount => (AddOutcome.added, store ++
              [{ _id := newId, user_id := sess.user_id,
                 category := strip (form.category.getD "Uncategorized"),
                 amount := amount,
                 date := (parseDate (strip (form.date.getD ""))).getD now }]))
        = (AddOutcome.invalidAmount, store)
    rw [hparse]
  · intro exp hexp
    simp only [edit, hexp, hform, hparse]

/-- C4 (witness): concrete malformed amount `"12x"` against a one-record
store owned by the caller. -/
theorem C4_invalid_amount_no_write_witness :
    add ⟨some "Food", some "12x", none⟩ aliceSess d0 2
        [⟨1, "alice", "Food", 10, d0⟩] =
      (AddOutcome.invalidAmount, [⟨1, "alice", "Food", 10, d0⟩]) ∧
    (∀ exp, findExpense 1 aliceSess.user_id [⟨1, "alice", "Food", 10, d0⟩] =
        some exp →
      edit 1 ⟨some "Food", some "12x", none⟩ aliceSess d0
          [⟨1, "alice", "Food", 10, d0⟩] =
        (EditOutcome.invalidAmount, [⟨1, "alice", "Food", 10, d0⟩])) :=
  C4_invalid_amount_no_write ⟨some "Food", some "12x", none⟩ aliceSess d0 2 1
    [⟨1, "alice", "Food", 10, d0⟩] "12x" rfl (by decide)

/-! Claim C5: the date-parse fallbacks of create and update differ. -/

/-- C5: when the date field is absent or does not parse as `YYYY-MM-DD`,
`add` persists the current UTC date `now`, while `edit` persists the
previously stored date of the record being updated; the two fallbacks are
asymmetric. -/
theorem C5_date_fallback_asymmetry (form : AddForm) (sess : Session)
    (now : Date) (newId oid : Nat) (store : List Expense) (s : String)
    (a : PyFloat)
    (hform : form.amount = some s) (hparse : parseAmount (strip s) = some a)
    (hd1 : parseDate (strip (form.date.getD "")) = none)
    (hd2 : parseDate (form.date.getD "") = none) :
    add form sess now newId store =
      (AddOutcome.added, store ++ [⟨newId, sess.user_id,
        strip (form.category.getD "Uncategorized"), a, now⟩]) ∧
    (∀ exp, findExpense oid sess.user_id store = some exp →
      edit oid form sess now store =
        (EditOutcome.updated, updateOne (fun e => e._id == oid)
          (fun e => { e with
            category := strip (form.category.getD exp.category),
            amount := a, date := exp.date }) store)) := by
  constructor
  · simp only [add, hform, Option.getD_some, hparse, hd1, Option.getD_none]
  · intro exp hexp
    simp only [edit, hexp, hform, hparse, hd2, Option.getD_none]

/-- C5 (witness): concrete non-parsing date string `"not-a-date"` against a
store holding one record dated `2024-01-10`, updated with `now` equal to
`2025-05-05`: create stamps `2025-05-05`, update keeps `2024-01-10`. -/
theorem C5_date_fallback_asymmetry_witness :
    add ⟨some "Food", some "7", some "not-a-date"⟩ aliceSess ⟨2025, 5, 5⟩ 2
        [⟨1, "alice", "Food", 10, d0⟩] =
      (AddOutcome.added, [⟨1, "alice", "Food", 10, d0⟩] ++
        [⟨2, "alice",
          strip ((⟨some "Food", some "7", some "not-a-date"⟩ :
            AddForm).category.getD "Uncategorized"), 7, ⟨2025, 5, 5⟩⟩]) ∧
    (∀ exp, findExpense 1 aliceSess.user_id [⟨1, "alice", "Food", 10, d0⟩] =
        some exp →
      edit 1 ⟨some "Food", some "7", some "not-a-date"⟩ aliceSess
          ⟨2025, 5, 5⟩ [⟨1, "alice", "Food", 10, d0⟩] =
        (EditOutcome.updated, updateOne (fun e => e._id == 1)
          (fun e => { e with
            category := strip ((⟨some "Food", some "7", some "not-a-date"⟩ :
              AddForm).category.getD exp.category),
            amount := 7, date := exp.date }) [⟨1, "alice", "Food", 10, d0⟩])) :=
  C5_date_fallback_asymmetry ⟨some "Food", some "7", some "not-a-date"⟩
    aliceSess ⟨2025, 5, 5⟩ 2 1 [⟨1, "alice", "Food", 10, d0⟩] "7" 7
    rfl (by decide) (by decide) (by decide)

/-! Claim C1: ownership scoping of single-record operations. -/

/-- C1 (counterexample): the claim says a non-admin deleting a record owned
by a different user receives a NotOwner/NotFound failure; the code leaves
the store unchanged but flashes the success message `"Expense deleted"`
(outcome `deleted`), never a not-found failure.  Here non-admin alice
deletes a record owned by bob. -/
theorem C1_counterexample_delete_presents_success :
    delete 1 aliceSess [⟨1, "bob", "Food", 10, d0⟩] =
      (DeleteOutcome.deleted, [⟨1, "bob", "Food", 10, d0⟩]) ∧
    aliceSess.role ≠ "admin" ∧ ("bob" : String) ≠ aliceSess.user_id := by
  refine ⟨by decide, by decide, by decide⟩

/-- C1 (amended): for a caller (in particular any non-admin) and a record
id owned entirely by other users, the single-record read locates nothing,
`edit` fails with the not-found outcome leaving the store unchanged, and
`delete` also leaves the store unchanged but reports the success flash
rather than a failure; the lookup of `edit` only locates records whose
owner equals the caller. -/
theorem C1_ownership_scoped (oid : Nat) (form : AddForm) (sess : Session)
    (now : Date) (store : List Expense)
    (hrole : sess.role ≠ "admin")
    (h : ∀ e ∈ store, e._id = oid → e.user_id ≠ sess.user_id) :
    findExpense oid sess.user_id store = none ∧
    edit oid form sess now store = (EditOutcome.notFound, store) ∧
    delete oid sess store = (DeleteOutcome.deleted, store) := by
  have hfalse : ∀ e ∈ store,
      (e._id == oid && e.user_id == sess.user_id) = false := by
    intro e he
    by_cases h1 : e._id = oid
    · have h2 : e.user_id ≠ sess.user_id := h e he h1
      simp [h1, h2]
    · simp [h1]
  have hfind : findExpense oid sess.user_id store = none := by
    unfold findExpense
    rw [List.find?_eq_none]
    intro e he
    rw [hfalse e he]
    exact Bool.false_ne_true
  refine ⟨hfind, ?_, ?_⟩
  · unfold edit
    rw [hfind]
  · unfold delete
    rw [deleteOne_eq_of_forall_false _ _ hfalse]

/-- C1 (witness): concrete instantiation with non-admin alice targeting a
record owned by bob. -/
theorem C1_ownership_scoped_witness :
    findExpense 1 aliceSess.user_id [⟨1, "bob", "Food", 10, d0⟩] = none ∧
    edit 1 ⟨some "X", some "1", none⟩ aliceSess d0
        [⟨1, "bob", "Food", 10, d0⟩] =
      (EditOutcome.notFound, [⟨1, "bob", "Food", 10, d0⟩]) ∧
    delete 1 aliceSess [⟨1, "bob", "Food", 10, d0⟩] =
      (DeleteOutcome.deleted, [⟨1, "bob", "Food", 10, d0⟩]) :=
  C1_ownership_scoped 1 ⟨some "X", some "1", none⟩ aliceSess d0
    [⟨1, "bob", "Food", 10, d0⟩] (by decide) (by decide)

/-! Claim C2: behavior of a repeated delete. -/

/-- C2 (counterexample): the claim says a second delete of the same id
fails with NotFound rather than silently succeeding; in the code the first
delete empties the store and the second delete returns the same success
outcome `deleted` again — there is no not-found presentation on the delete
path at all. -/
theorem C2_counterexample_second_delete_succeeds :
    (delete 1 aliceSess [⟨1, "alice", "Food", 5, d0⟩]).2 = [] ∧
    delete 1 aliceSess ((delete 1 aliceSess
        [⟨1, "alice", "Food", 5, d0⟩]).2) =
      (DeleteOutcome.deleted, []) := by
  refine ⟨by decide, by decide⟩

/-- C2 (amended): with unique record ids, a second delete with the same id
removes nothing (the store is unchanged) and reports the same success flash
`"Expense deleted"` as the first; it silently succeeds instead of failing
with NotFound. -/
theorem C2_second_delete_silent (oid : Nat) (sess : Session)
    (store : List Expense) (h : (store.map Expense._id).Nodup) :
    delete oid sess ((delete oid sess store).2) =
      (DeleteOutcome.deleted, (delete oid sess store).2) := by
  unfold delete
  rw [deleteOne_idem_of_nodup oid sess.user_id store h]

/-- C2 (witness): concrete one-record store with a unique id. -/
theorem C2_second_delete_silent_witness :
    delete 2 aliceSess ((delete 2 aliceSess
        [⟨2, "alice", "Food", 5, d0⟩]).2) =
      (DeleteOutcome.deleted,
        (delete 2 aliceSess [⟨2, "alice", "Food", 5, d0⟩]).2) :=
  C2_second_delete_silent 2 aliceSess [⟨2, "alice", "Food", 5, d0⟩]
    (by decide)

/-! Claim C6: ordering of the category aggregation. -/

/-- Lexicographic strict order on character lists, comparing code
points. -/
def charListLt : List Char → List Char → Bool
  | [], [] => false
  | [], _ :: _ => true
  | _ :: _, [] => false
  | a :: as, b :: bs =>
    if a.toNat < b.toNat then true
    else if a.toNat == b.toNat then charListLt as bs
    else false

/-- Lexicographic strict order on strings (ascending label order). -/
def strLt (a b : String) : Bool := charListLt a.toList b.toList

/-- Ordering asserted by the specification for `categoryTotals`: totals
strictly descending, with ties between equal sums broken by category label
ascending.  This definition follows the words of the spec and exists only
to be compared against the behavior of the code. -/
def specClaimedOrder : List (String × PyFloat) → Bool
  | [] => true
  | a :: rest =>
    match rest with
    | [] => true
    | b :: _ =>
      ((pyLeB b.2 a.2 && !(decide (b.2 = a.2))) ||
        (decide (a.2 = b.2) && strLt a.1 b.1)) && specClaimedOrder rest

/-- C6 (counterexample): the pipeline sorts only by `{"total": -1}` and
MongoDB leaves the relative order of equal sort keys unspecified, so on
this scoped record set the output `[("B", 1), ("A", 1)]` — equal sums with
label `"B"` first — is consistent with the pipeline, and it violates the
claimed ascending-label tie-break.  The claimed deterministic order is
therefore not guaranteed by the code. -/
theorem C6_counterexample_no_label_tiebreak :
    validAggOutput [⟨1, "alice", "B", 1, d0⟩, ⟨2, "alice", "A", 1, d0⟩]
      [("B", 1), ("A", 1)] ∧
    specClaimedOrder [("B", 1), ("A", 1)] = false := by
  refine ⟨⟨?_, ?_⟩, by decide⟩
  · rw [show groupTotals [⟨1, "alice", "B", 1, d0⟩, ⟨2, "alice", "A", 1, d0⟩]
        = [("B", 1), ("A", 1)] from by decide]
  · refine List.Pairwise.cons (fun b hb => ?_)
      (List.Pairwise.cons (fun b hb => absurd hb (List.not_mem_nil b))
        List.Pairwise.nil)
    rw [List.mem_singleton] at hb
    subst hb
    decide

/-- C6 (amended): the aggregation output is sorted descending by sum, but
with no secondary sort key the order of equal sums is unspecified, so the
output is deterministic only up to reordering of ties: any two outputs
consistent with the pipeline are permutations of each other with identical
sequences of sums; the ascending-label tie order the spec claims is not
among the guarantees. -/
theorem C6_deterministic_up_to_ties (l : List Expense)
    (out1 out2 : List (String × PyFloat))
    (h1 : validAggOutput l out1) (h2 : validAggOutput l out2) :
    out1.Perm out2 ∧
    out1.map (fun p => p.2) = out2.map (fun p => p.2) := by
  have hperm : out1.Perm out2 := h1.1.trans h2.1.symm
  refine ⟨hperm, ?_⟩
  have hs1 : List.Pairwise pyGe (out1.map (fun p => p.2)) := by
    rw [List.pairwise_map]
    exact h1.2
  have hs2 : List.Pairwise pyGe (out2.map (fun p => p.2)) := by
    rw [List.pairwise_map]
    exact h2.2
  exact List.eq_of_perm_of_sorted (hperm.map (fun p => p.2)) hs1 hs2

/-- C6 (witness): on a two-record scope with equal sums, both tie orders
are pipeline-consistent, and the amended theorem applied to them yields
the permutation and the equal sum sequences. -/
theorem C6_deterministic_up_to_ties_witness :
    List.Perm [("B", (1 : PyFloat)), ("A", 1)]
      [("A", (1 : PyFloat)), ("B", 1)] ∧
    [("B", (1 : PyFloat)), ("A", 1)].map (fun p => p.2) =
      [("A", (1 : PyFloat)), ("B", 1)].map (fun p => p.2) :=
  C6_deterministic_up_to_ties
    [⟨1, "alice", "B", 1, d0⟩, ⟨2, "alice", "A", 1, d0⟩]
    [("B", 1), ("A", 1)] [("A", 1), ("B", 1)]
    ⟨by
      rw [show groupTotals [⟨1, "alice", "B", 1, d0⟩, ⟨2, "alice", "A", 1, d0⟩]
          = [("B", 1), ("A", 1)] from by decide],
     by
      refine List.Pairwise.cons (fun b hb => ?_)
        (List.Pairwise.cons (fun b hb => absurd hb (List.not_mem_nil b))
          List.Pairwise.nil)
      rw [List.mem_singleton] at hb
      subst hb
      decide⟩
    ⟨by
      rw [show groupTotals [⟨1, "alice", "B", 1, d0⟩, ⟨2, "alice", "A", 1, d0⟩]
          = [("B", 1), ("A", 1)] from by decide]
      exact List.Perm.swap ("B", 1) ("A", 1) [],
     by
      refine List.Pairwise.cons (fun b hb => ?_)
        (List.Pairwise.cons (fun b hb => absurd hb (List.not_mem_nil b))
          List.Pairwise.nil)
      rw [List.mem_singleton] at hb
      subst hb
      decide⟩

/-! Claim C8: the admin gate on listing and export routes. -/

/-- C8: the list-all-expenses, list-all-users and export routes succeed
exactly when the session role is `"admin"`; for any other role every one of
them is denied with the admin-only redirect, uniformly over the store
contents (the handler body, and with it the collection read, is never
reached). -/
theorem C8_admin_gate (sess : Session) (es : List Expense) (us : List User) :
    ((∃ l, admin_expenses sess es = AdminResult.ok l) ↔
      sess.role = "admin") ∧
    ((∃ l, admin_users sess us = AdminResult.ok l) ↔ sess.role = "admin") ∧
    (∀ ty, (ty = "expenses" ∨ ty = "users") →
      ((∃ n rows, admin_export sess ty es us = ExportResult.file n rows) ↔
        sess.role = "admin")) ∧
    (sess.role ≠ "admin" →
      admin_expenses sess es = AdminResult.denied ∧
      admin_users sess us = AdminResult.denied ∧
      ∀ ty, admin_export sess ty es us = ExportResult.denied) := by
  by_cases h : sess.role = "admin"
  · refine ⟨?_, ?_, ?_, fun hc => absurd h hc⟩
    · simp [admin_expenses, h]
    · simp [admin_users, h]
    · rintro ty (rfl | rfl) <;> simp [admin_export, h]
  · refine ⟨?_, ?_, ?_, fun _ => ⟨?_, ?_, fun ty => ?_⟩⟩
    · simp [admin_expenses, h]
    · simp [admin_users, h]
    · rintro ty _
      simp [admin_export, h]
    · simp [admin_expenses, h]
    · simp [admin_users, h]
    · simp [admin_export, h]

/-- C8 (witness): an admin session is allowed through the expense listing,
and a non-admin session is denied the users export. -/
theorem C8_admin_gate_witness :
    (∃ l, admin_expenses ⟨"root", "admin"⟩ ([] : List Expense) =
      AdminResult.ok l) ∧
    admin_export aliceSess "users" [] [] = ExportResult.denied :=
  ⟨(C8_admin_gate ⟨"root", "admin"⟩ [] []).1.mpr rfl,
   ((C8_admin_gate aliceSess [] []).2.2.2 (by decide)).2.2 "users"⟩

/-! Claim C10: the users export contains the stored password hashes. -/

/-- C10: for an admin session, the export of kind `"users"` produces the
file `users.xlsx` whose rows are the full user documents with `_id`
stringified, and for every stored user the corresponding row carries the
stored password hash in its `password` column. -/
theorem C10_users_export_includes_password_hash (sess : Session)
    (es : List Expense) (us : List User) (u : User)
    (hrole : sess.role = "admin") (hu : u ∈ us) :
    admin_export sess "users" es us =
      ExportResult.file "users.xlsx" (us.map userRow) ∧
    userRow u ∈ us.map userRow ∧
    ("password", Cell.str u.password) ∈ userRow u := by
  refine ⟨?_, List.mem_map_of_mem userRow hu, by simp [userRow]⟩
  unfold admin_export
  rw [hrole]
  rfl

/-- C10 (witness): a concrete admin export over one stored user whose
password hash is the string `"pbkdf2hash"`. -/
theorem C10_users_export_includes_password_hash_witness :
    admin_export ⟨"root", "admin"⟩ "users" []
        [⟨1, "alice", "pbkdf2hash", "user"⟩] =
      ExportResult.file "users.xlsx"
        ([⟨1, "alice", "pbkdf2hash", "user"⟩].map userRow) ∧
    userRow ⟨1, "alice", "pbkdf2hash", "user"⟩ ∈
      [(⟨1, "alice", "pbkdf2hash", "user"⟩ : User)].map userRow ∧
    ("password", Cell.str "pbkdf2hash") ∈
      userRow ⟨1, "alice", "pbkdf2hash", "user"⟩ :=
  C10_users_export_includes_password_hash ⟨"root", "admin"⟩ []
    [⟨1, "alice", "pbkdf2hash", "user"⟩] ⟨1, "alice", "pbkdf2hash", "user"⟩
    rfl (List.mem_singleton.mpr rfl)

end ExpenseTracker
